import Mathlib

/-!
Shallow embedding of the alarm subsystem of `alarm_manager.py` /
`core_features.py` (resource-threshold monitor).

Conventions of the embedding:
* Metric values (`cpu_percent`, …) are `Rat`: the Python code only ever
  compares them with `<=` against integer thresholds, so rationals model the
  float values faithfully (no float arithmetic is performed anywhere).
* The mutable `AlarmManager` object becomes the state record `AMState`;
  methods become state-passing functions.  The JSON file behind
  `save_alarms` is the `persisted` field.
* `uuid.uuid4()` and `datetime.now()` are external inputs, passed in as the
  parameters `newId`, `hour` and `now`.
* `log_event` and `send_alert_email` are fire-and-forget external sinks with
  no effect on manager state; they are not modelled.
* Python `max(xs, key=k)` returns the first element attaining the maximum
  (later elements replace the current best only when strictly greater);
  `pythonMax` reproduces that.
-/

namespace AlarmMgr

/-- Constant `AVAILABLE_RESOURCES = ['cpu', 'ram', 'disk', 'logs']`. -/
def AVAILABLE_RESOURCES : List String := ["cpu", "ram", "disk", "logs"]

/-- One alarm rule, as stored in the `self.alarms` list
(dict with keys id, name, resource, threshold, active_period). -/
structure Alarm where
  id : String
  name : String
  resource : String
  threshold : Int
  active_period : String
deriving Repr, DecidableEq

/-- The dict built by `_trigger_alarm`: `alarm.copy()` plus
`current_value` and `triggered_at`. -/
structure TriggeredAlarm where
  rule : Alarm
  current_value : Rat
  triggered_at : Nat
deriving Repr, DecidableEq

/-- The dict returned by `get_system_usage` (informational `*_gb` fields
included for fidelity; evaluation only reads the `*_percent` ones). -/
structure Usage where
  cpu_percent : Rat
  ram_percent : Rat
  ram_total_gb : Rat
  ram_used_gb : Rat
  disk_percent : Rat
  disk_total_gb : Rat
  disk_used_gb : Rat
deriving Repr, DecidableEq

/-- The all-zero dict returned by the `except` branch of
`get_system_usage` when the psutil calls fail. -/
def zeroUsage : Usage :=
  { cpu_percent := 0, ram_percent := 0, ram_total_gb := 0, ram_used_gb := 0
    disk_percent := 0, disk_total_gb := 0, disk_used_gb := 0 }

/-- Model of `get_system_usage()`: the psutil sampling is external and possibly
failing, so it is passed in as `Option Usage`; on failure (`none`) the
function logs and returns the zero dict instead of raising. -/
def get_system_usage (sample : Option Usage) : Usage :=
  match sample with
  | some u => u
  | none => zeroUsage

/-- Lookup `usage_data.get('<resource>_percent', 0)` for the three psutil-backed
resources (default 0 for an absent key). -/
def usageGet (u : Usage) (resource : String) : Rat :=
  if resource = "cpu" then u.cpu_percent
  else if resource = "ram" then u.ram_percent
  else if resource = "disk" then u.disk_percent
  else 0

/-- Mutable state of an `AlarmManager` instance, plus the on-disk
`alarms.json` content (`persisted`) written by `save_alarms`.
(The pulse/monitoring thread flags play no role in the claims' operations
and carry no data the alarm logic reads.) -/
structure AMState where
  alarms : List Alarm
  triggered_alarm : Option TriggeredAlarm
  persisted : List Alarm
deriving Repr, DecidableEq

/-- Dict `sort_order` mapping cpu to 1, ram to 2, disk to 3, with `.get(_, 99)`. -/
def sortOrder (resource : String) : Int :=
  if resource = "cpu" then 1
  else if resource = "ram" then 2
  else if resource = "disk" then 3
  else 99

/-- Key `(sort_order.get(a['resource'], 99), a['threshold'])` used by
`get_alarms`. -/
def sortKey (a : Alarm) : Int × Int := (sortOrder a.resource, a.threshold)

/-- Lexicographic `<=` on sort keys, as Python's tuple comparison. -/
def keyLE (a b : Alarm) : Bool :=
  decide ((sortKey a).1 < (sortKey b).1 ∨
    ((sortKey a).1 = (sortKey b).1 ∧ (sortKey a).2 ≤ (sortKey b).2))

/-- Method `get_alarms`: returns the alarm list sorted by (resource order,
threshold).  Python's `sorted` is a stable sort under the total preorder
`keyLE`; insertion sort is likewise stable, so the two produce the same
list. -/
def get_alarms (st : AMState) : List Alarm :=
  st.alarms.insertionSort (fun a b => keyLE a b = true)

/-- Branch of `_is_alarm_active` on the `active_period` string and the
current hour (the body of the method after reading
`alarm.get('active_period', 'always')` and `datetime.now().hour`;
the enclosing `try/except: return True` cannot fire in the model). -/
def isActivePeriod (period : String) (hour : Nat) : Bool :=
  if period = "always" then true
  else if period = "day" then decide (6 ≤ hour ∧ hour ≤ 21)
  else if period = "night" then decide (hour < 6 ∨ hour > 21)
  else if period = "office" then decide (9 ≤ hour ∧ hour ≤ 17)
  else if period = "non-office" then ! decide (9 ≤ hour ∧ hour ≤ 17)
  else true

/-- Method `_is_alarm_active(alarm)` at wall-clock hour `hour`. -/
def is_alarm_active (a : Alarm) (hour : Nat) : Bool :=
  isActivePeriod a.active_period hour

/-- Python `max(x :: xs, key=key)`: first element attaining the maximum. -/
def pythonMax (key : Alarm → Int) (x : Alarm) (xs : List Alarm) : Alarm :=
  xs.foldl (fun best y => if key best < key y then y else best) x

/-- Method `_trigger_alarm(alarm, current_value)`: log, set
`triggered_alarm = alarm.copy() + current_value + triggered_at`, best-effort
email (external, no state effect). -/
def trigger_alarm (st : AMState) (a : Alarm) (current_value : Rat) (now : Nat) :
    AMState :=
  { st with triggered_alarm := some ⟨a, current_value, now⟩ }

/-- The metric value the monitor-thread loop body uses for `resource`:
the separately fetched `log_count` for `logs` (the thread also stores it
into `usage_data['logs_percent']`, which nothing else reads), else
`usage_data.get(f'{resource}_percent', 0)`. -/
def currentValue (usage : Usage) (log_count : Nat) (resource : String) : Rat :=
  if resource = "logs" then (log_count : Rat) else usageGet usage resource

/-- The selection made by one iteration of the `for resource in
AVAILABLE_RESOURCES` loop in `AlarmMonitorThread.run` (lines 98-110):
filter to this resource's breached rules, `continue` when empty, filter to
the currently active ones, `continue` when empty, else pick
`max(active_alarms, key=threshold)`.  `some w` means `_trigger_alarm(w, v)`
is called; `none` means the iteration leaves the manager untouched. -/
def resourceWinner (alarms : List Alarm) (resource : String)
    (current_value : Rat) (hour : Nat) : Option Alarm :=
  let resource_alarms := alarms.filter
    (fun a => decide (a.resource = resource) &&
      decide ((a.threshold : Rat) ≤ current_value))
  if resource_alarms.isEmpty then none
  else
    match resource_alarms.filter (fun a => is_alarm_active a hour) with
    | [] => none
    | x :: xs => some (pythonMax (fun a => a.threshold) x xs)

/-- One iteration of the resource loop in `AlarmMonitorThread.run`,
as a state transformer (the `logs` branch passes a custom log message to
`_trigger_alarm`, which only changes the logged text, not the state). -/
def evalResource (usage : Usage) (log_count : Nat) (hour now : Nat)
    (st : AMState) (resource : String) : AMState :=
  let v := currentValue usage log_count resource
  match resourceWinner (get_alarms st) resource v hour with
  | none => st
  | some w => trigger_alarm st w v now

/-- One successful tick of `AlarmMonitorThread.run`: sample usage (zeros
on sampling failure), read the log count, then run the resource loop.
A raised exception anywhere in the tick is caught at the tick boundary and
leaves the state unchanged, so only the normal path mutates state. -/
def runTick (st : AMState) (sample : Option Usage) (log_count : Nat)
    (hour now : Nat) : AMState :=
  let usage := get_system_usage sample
  AVAILABLE_RESOURCES.foldl (evalResource usage log_count hour now) st

/-- Per-resource selection of `AlarmManager._check_alarms` (lines 365-377):
like the thread's, but with NO active-period filtering; this method is not
called anywhere in the repository. -/
def checkResourceWinner (alarms : List Alarm) (resource : String)
    (current_value : Rat) : Option Alarm :=
  match alarms.filter (fun a => decide (a.resource = resource) &&
      decide ((a.threshold : Rat) ≤ current_value)) with
  | [] => none
  | x :: xs => some (pythonMax (fun a => a.threshold) x xs)

/-- Method `AlarmManager._check_alarms(usage_data)` (lines 356-378): resets
`triggered_alarm` to `None` first, then iterates `self.alarms` (unsorted)
per resource; the `logs` value comes from the absent `logs_percent` key,
hence defaults to 0.  Dead code in the repository (no caller). -/
def check_alarms (st : AMState) (usage_data : Usage) (now : Nat) : AMState :=
  let st0 := { st with triggered_alarm := Option.none }
  AVAILABLE_RESOURCES.foldl (fun s r =>
    let v := usageGet usage_data r
    match checkResourceWinner s.alarms r v with
    | Option.none => s
    | some w => trigger_alarm s w v now) st0

/-- List `valid_periods` in `add_alarm`. -/
def VALID_PERIODS : List String := ["day", "night", "office", "non-office", "always"]

/-- The default display name
`f"{resource.upper()} alarm {threshold}%"` (or `f"LOGS alarm {threshold}"`). -/
def defaultName (resource : String) (threshold : Int) : String :=
  if resource ≠ "logs" then
    resource.toUpper ++ " alarm " ++ toString threshold ++ "%"
  else "LOGS alarm " ++ toString threshold

/-- Expression `name if name else <default>`: Python treats `None` and `""` as falsy. -/
def resolveName (name : Option String) (resource : String) (threshold : Int) :
    String :=
  match name with
  | some s => if s = "" then defaultName resource threshold else s
  | Option.none => defaultName resource threshold

/-- The `new_alarm` dict built by `add_alarm` once validation passed. -/
def mkNewAlarm (resource : String) (threshold : Int) (name : Option String)
    (active_period newId : String) : Alarm :=
  { id := newId, name := resolveName name resource threshold
    resource := resource, threshold := threshold
    active_period := active_period }

/-- Validity of an `add_alarm` request, read off the method's guards:
known resource, threshold in range for the resource kind, known period. -/
def validAdd (resource : String) (threshold : Int) (active_period : String) :
    Prop :=
  resource ∈ AVAILABLE_RESOURCES ∧
  (resource = "logs" → 0 < threshold) ∧
  (resource ≠ "logs" → 1 ≤ threshold ∧ threshold ≤ 100) ∧
  active_period ∈ VALID_PERIODS

instance (resource : String) (threshold : Int) (active_period : String) :
    Decidable (validAdd resource threshold active_period) := by
  unfold validAdd
  infer_instance

/-- Method `AlarmManager.add_alarm(resource, threshold, name, active_period)` with a
numeric threshold (the backwards-compatibility shift at lines 260-262 requires
`isinstance(threshold, str)` and so never fires here; `addAlarmPy` models the
raw untyped entry point).  `newId` stands for `str(uuid.uuid4())`.  A raised
`ValueError` is the `.error` result and happens before any mutation. -/
def add_alarm (st : AMState) (resource : String) (threshold : Int)
    (name : Option String) (active_period : String) (newId : String) :
    Except String String × AMState :=
  if resource ∉ AVAILABLE_RESOURCES then
    (.error ("Invalid resource: " ++ resource), st)
  else if resource = "logs" ∧ threshold ≤ 0 then
    (.error "Threshold for logs must be a positive integer.", st)
  else if resource ≠ "logs" ∧ ¬(1 ≤ threshold ∧ threshold ≤ 100) then
    (.error "Threshold must be between 1 and 100.", st)
  else if active_period ∉ VALID_PERIODS then
    (.error "active_period must be one of valid_periods.", st)
  else
    let a := mkNewAlarm resource threshold name active_period newId
    (.ok newId,
      { st with alarms := st.alarms ++ [a], persisted := st.alarms ++ [a] })

/-- Method `AlarmManager.remove_alarm(alarm_id)` (lines 298-315): filter out the id;
when the list shrank, persist, clear `triggered_alarm` if it carries the
removed id, return `True`; else return `False` with nothing written. -/
def remove_alarm (st : AMState) (alarm_id : String) : Bool × AMState :=
  let newAlarms := st.alarms.filter (fun a => decide (a.id ≠ alarm_id))
  if newAlarms.length < st.alarms.length then
    let cleared : Option TriggeredAlarm :=
      match st.triggered_alarm with
      | some t => if t.rule.id = alarm_id then Option.none else some t
      | Option.none => Option.none
    (true, { alarms := newAlarms, triggered_alarm := cleared
             persisted := newAlarms })
  else (false, st)

/-- Method `get_triggered_alarm()`. -/
def get_triggered_alarm (st : AMState) : Option TriggeredAlarm :=
  st.triggered_alarm

/-! ### The untyped `add_alarm` entry point

Python's `add_alarm` is untyped: the GUI may pass
`add_alarm(name, resource, threshold)` and lines 260-262 shift the
arguments back when that happens.  `PyVal` models the dynamically typed
argument values that reach the function. -/

/-- A dynamically typed Python argument value (the shapes `add_alarm`'s
callers pass: a string, an int, or `None`). -/
inductive PyVal where
  | str (s : String)
  | int (n : Int)
  | pynone
deriving Repr, DecidableEq

/-- Python truthiness of a `PyVal` (`if name:`). -/
def PyVal.truthy : PyVal → Bool
  | .str s => s ≠ ""
  | .int n => n ≠ 0
  | .pynone => false

/-- Test `x in AVAILABLE_RESOURCES` for a dynamic value: only equal strings
match. -/
def PyVal.inResources : PyVal → Bool
  | .str s => s ∈ AVAILABLE_RESOURCES
  | _ => false

/-- Test `isinstance(x, str)`. -/
def PyVal.isStr : PyVal → Bool
  | .str _ => true
  | _ => false

/-- The string stored in the rule's `name` field: Python stores the value
as-is, and every caller passes a string or `None` there, so rendering the
(unreachable) numeric case by its decimal form loses nothing. -/
def PyVal.render : PyVal → String
  | .str s => s
  | .int n => toString n
  | .pynone => ""

/-- Expression `name if name else <default>` on a dynamic name value. -/
def resolveNamePy (name : PyVal) (resource : String) (threshold : Int) :
    String :=
  if name.truthy then name.render else defaultName resource threshold

/-- Method `AlarmManager.add_alarm` on raw dynamic arguments, including the
backwards-compatibility parameter shift of lines 260-262
(`if resource not in AVAILABLE_RESOURCES and isinstance(threshold, str)
and threshold in AVAILABLE_RESOURCES: name, resource, threshold =
resource, threshold, name`).  A non-string resource or non-int threshold
surviving to a check raises (`ValueError`/`TypeError`), modelled as
`.error`. -/
def addAlarmPy (st : AMState) (resource threshold name : PyVal)
    (active_period : String) (newId : String) :
    Except String String × AMState :=
  let args :=
    if !resource.inResources && threshold.isStr && threshold.inResources then
      (resource, threshold, name)
    else (name, resource, threshold)
  match args with
  | (name, resource, threshold) =>
    match resource with
    | .str r =>
      if r ∉ AVAILABLE_RESOURCES then
        (.error ("Invalid resource: " ++ r), st)
      else
        match threshold with
        | .int t =>
          if r = "logs" ∧ t ≤ 0 then
            (.error "Threshold for logs must be a positive integer.", st)
          else if r ≠ "logs" ∧ ¬(1 ≤ t ∧ t ≤ 100) then
            (.error "Threshold must be between 1 and 100.", st)
          else if active_period ∉ VALID_PERIODS then
            (.error "active_period must be one of valid_periods.", st)
          else
            let a : Alarm :=
              { id := newId, name := resolveNamePy name r t
                resource := r, threshold := t, active_period := active_period }
            (.ok newId,
              { st with alarms := st.alarms ++ [a]
                        persisted := st.alarms ++ [a] })
        | _ => (.error "TypeError: threshold comparison", st)
    | _ => (.error "Invalid resource: <non-string>", st)

/-! ### Reference semantics of `get_alarms`

`get_alarms` returns `sorted(self.alarms, …)`: a NEW list object whose
elements are the SAME dict objects held by `self.alarms`.  To reason about
caller-side mutation of those shared records, alarms are modelled as cells
of a heap and `self.alarms` as a list of references into it. -/

/-- An `AlarmManager` whose rule dicts live on a heap: `refs` is
`self.alarms` (a list of references), `heap` gives each cell's current
contents. -/
structure StoreRefs where
  heap : Nat → Alarm
  refs : List Nat

/-- The rule list the manager's internal state denotes (dereference every
element of `self.alarms`). -/
def StoreRefs.view (s : StoreRefs) : List Alarm :=
  s.refs.map s.heap

/-- Method `get_alarms` under reference semantics: `sorted` builds a fresh list of
the same references, ordered by the key on the referenced dicts. -/
def getAlarmsRefs (s : StoreRefs) : List Nat :=
  s.refs.insertionSort (fun i j => keyLE (s.heap i) (s.heap j) = true)

/-- A caller mutating a rule dict it received (e.g. `rule['threshold'] = …`
on an element of the returned list): the cell is overwritten in place. -/
def writeCell (s : StoreRefs) (r : Nat) (a : Alarm) : StoreRefs :=
  { s with heap := fun n => if n = r then a else s.heap n }

/-! ### Derived evaluation notions and concrete instances -/

/-- The breached subset for a resource: the list comprehension filter
`alarm['resource'] == resource and alarm['threshold'] <= current_value`. -/
def breached (alarms : List Alarm) (resource : String) (current_value : Rat) :
    List Alarm :=
  alarms.filter (fun a => decide (a.resource = resource) &&
    decide ((a.threshold : Rat) ≤ current_value))

/-- Breached rules that are also active for the current hour: the candidate
set from which `AlarmMonitorThread.run` picks its per-resource winner. -/
def activeBreached (alarms : List Alarm) (resource : String)
    (current_value : Rat) (hour : Nat) : List Alarm :=
  (breached alarms resource current_value).filter
    (fun a => is_alarm_active a hour)

/-- The sequence of `_trigger_alarm` calls one tick makes: for each resource
in enumeration order, the selected rule paired with the metric value it was
compared against. -/
def tickWinners (alarms : List Alarm) (usage : Usage) (log_count hour : Nat) :
    List (Alarm × Rat) :=
  AVAILABLE_RESOURCES.filterMap (fun r =>
    (resourceWinner alarms r (currentValue usage log_count r) hour).map
      (fun w => (w, currentValue usage log_count r)))

/-- The triggered-alarm value left behind by a sequence of
`_trigger_alarm` calls: the last call wins; no call leaves the previous
value. -/
def lastTrigger (ws : List (Alarm × Rat)) (prev : Option TriggeredAlarm)
    (now : Nat) : Option TriggeredAlarm :=
  match ws.getLast? with
  | some p => some ⟨p.1, p.2, now⟩
  | Option.none => prev

/-- Sample cpu rule with threshold 70, always active. -/
def cpuRule70 : Alarm :=
  { id := "id-c70", name := "CPU alarm 70%", resource := "cpu"
    threshold := 70, active_period := "always" }

/-- Sample cpu rule with threshold 85, always active. -/
def cpuRule85 : Alarm :=
  { id := "id-c85", name := "CPU alarm 85%", resource := "cpu"
    threshold := 85, active_period := "always" }

/-- Sample cpu rule restricted to office hours. -/
def officeRule : Alarm :=
  { id := "id-off", name := "Office CPU", resource := "cpu"
    threshold := 50, active_period := "office" }

/-- Sample logs rule with threshold 1, always active. -/
def logsRule : Alarm :=
  { id := "id-logs", name := "LOGS alarm 1", resource := "logs"
    threshold := 1, active_period := "always" }

/-- Usage snapshot with `cpu_percent = 90` and all other metrics zero. -/
def usage90 : Usage :=
  { cpu_percent := 90, ram_percent := 0, ram_total_gb := 0, ram_used_gb := 0
    disk_percent := 0, disk_total_gb := 0, disk_used_gb := 0 }

/-- A previously established triggered-alarm value. -/
def prevTrig : TriggeredAlarm :=
  { rule := cpuRule70, current_value := 99, triggered_at := 0 }

/-- Manager state with no alarm rules but a stale triggered alarm. -/
def stNoRules : AMState :=
  { alarms := [], triggered_alarm := some prevTrig, persisted := [] }

/-- Manager state holding only the sample logs rule. -/
def stLogsOnly : AMState :=
  { alarms := [logsRule], triggered_alarm := Option.none
    persisted := [logsRule] }

/-- Manager state holding the two cpu rules and the logs rule. -/
def stCpuLogs : AMState :=
  { alarms := [cpuRule70, cpuRule85, logsRule]
    triggered_alarm := Option.none, persisted := [] }

/-- Manager state holding the office-hours cpu rule only. -/
def stOffice : AMState :=
  { alarms := [officeRule], triggered_alarm := Option.none
    persisted := [officeRule] }

/-- Empty manager state. -/
def stEmpty : AMState :=
  { alarms := [], triggered_alarm := Option.none, persisted := [] }

/-- Manager state whose logs rule is currently the triggered alarm. -/
def stTrigLogs : AMState :=
  { alarms := [logsRule]
    triggered_alarm := some { rule := logsRule, current_value := 5
                              triggered_at := 0 }
    persisted := [logsRule] }

/-- A one-cell store whose single rule is `cpuRule70`. -/
def exStore : StoreRefs := { heap := fun _ => cpuRule70, refs := [0] }

/-- The rule a caller obtains from `exStore` after lowering its threshold
in place. -/
def mutatedRule : Alarm :=
  { id := "id-c70", name := "CPU alarm 70%", resource := "cpu"
    threshold := 1, active_period := "always" }

/-! ### Helper lemmas -/

theorem mem_get_alarms {st : AMState} {a : Alarm} :
    a ∈ get_alarms st ↔ a ∈ st.alarms := by
  unfold get_alarms
  exact List.mem_insertionSort _

theorem pythonMax_spec (key : Alarm → Int) (x : Alarm) (xs : List Alarm) :
    pythonMax key x xs ∈ x :: xs ∧
    key x ≤ key (pythonMax key x xs) ∧
    ∀ y ∈ xs, key y ≤ key (pythonMax key x xs) := by
  induction xs generalizing x with
  | nil => simp [pythonMax]
  | cons y ys ih =>
    by_cases hk : key x < key y
    · have hunf : pythonMax key x (y :: ys) = pythonMax key y ys := by
        simp [pythonMax, hk]
      obtain ⟨hm, hle, hall⟩ := ih y
      rw [hunf]
      refine ⟨?_, ?_, ?_⟩
      · rcases List.mem_cons.mp hm with h | h
        · rw [h]
          exact List.mem_cons_of_mem _ (List.mem_cons_self _ _)
        · exact List.mem_cons_of_mem _ (List.mem_cons_of_mem _ h)
      · exact le_trans (le_of_lt hk) hle
      · intro z hz
        rcases List.mem_cons.mp hz with h | h
        · rw [h]; exact hle
        · exact hall z h
    · have hunf : pythonMax key x (y :: ys) = pythonMax key x ys := by
        simp [pythonMax, hk]
      obtain ⟨hm, hle, hall⟩ := ih x
      rw [hunf]
      refine ⟨?_, ?_, ?_⟩
      · rcases List.mem_cons.mp hm with h | h
        · rw [h]; exact List.mem_cons_self _ _
        · exact List.mem_cons_of_mem _ (List.mem_cons_of_mem _ h)
      · exact hle
      · intro z hz
        rcases List.mem_cons.mp hz with h | h
        · rw [h]; exact le_trans (le_of_not_lt hk) hle
        · exact hall z h

theorem resourceWinner_eq_activeBreached (alarms : List Alarm)
    (resource : String) (v : Rat) (hour : Nat) :
    resourceWinner alarms resource v hour =
      match activeBreached alarms resource v hour with
      | [] => Option.none
      | x :: xs => some (pythonMax (fun a => a.threshold) x xs) := by
  unfold resourceWinner activeBreached breached
  cases h : alarms.filter (fun a => decide (a.resource = resource) &&
      decide ((a.threshold : Rat) ≤ v)) with
  | nil => simp [h]
  | cons a as => simp [h]

theorem evalResource_alarms (usage : Usage) (lc hour now : Nat)
    (st : AMState) (r : String) :
    (evalResource usage lc hour now st r).alarms = st.alarms ∧
    (evalResource usage lc hour now st r).persisted = st.persisted := by
  unfold evalResource
  rcases hw : resourceWinner (get_alarms st) r (currentValue usage lc r) hour <;>
    simp [hw, trigger_alarm]

theorem evalResource_triggered (usage : Usage) (lc hour now : Nat)
    (st : AMState) (r : String) :
    (evalResource usage lc hour now st r).triggered_alarm =
      match resourceWinner (get_alarms st) r (currentValue usage lc r) hour with
      | some w => some ⟨w, currentValue usage lc r, now⟩
      | Option.none => st.triggered_alarm := by
  unfold evalResource
  rcases hw : resourceWinner (get_alarms st) r (currentValue usage lc r) hour <;>
    simp [hw, trigger_alarm]

theorem foldl_evalResource (usage : Usage) (lc hour now : Nat)
    (rs : List String) (st : AMState) :
    (rs.foldl (evalResource usage lc hour now) st).alarms = st.alarms ∧
    (rs.foldl (evalResource usage lc hour now) st).persisted = st.persisted ∧
    (rs.foldl (evalResource usage lc hour now) st).triggered_alarm =
      lastTrigger (rs.filterMap (fun r =>
          (resourceWinner (get_alarms st) r (currentValue usage lc r) hour).map
            (fun w => (w, currentValue usage lc r))))
        st.triggered_alarm now := by
  induction rs generalizing st with
  | nil => simp [lastTrigger]
  | cons r rs ih =>
    have halarm := evalResource_alarms usage lc hour now st r
    have hget : get_alarms (evalResource usage lc hour now st r) =
        get_alarms st := by
      unfold get_alarms; rw [halarm.1]
    obtain ⟨ha, hp, ht⟩ := ih (evalResource usage lc hour now st r)
    rw [List.foldl_cons]
    refine ⟨ha.trans halarm.1, hp.trans halarm.2, ?_⟩
    rw [ht, hget, List.filterMap_cons]
    cases hw : resourceWinner (get_alarms st) r (currentValue usage lc r) hour with
    | none =>
      simp only [Option.map_none']
      have hsame : (evalResource usage lc hour now st r).triggered_alarm =
          st.triggered_alarm := by
        rw [evalResource_triggered, hw]
      rw [hsame]
    | some w =>
      simp only [Option.map_some']
      have htrig : (evalResource usage lc hour now st r).triggered_alarm =
          some ⟨w, currentValue usage lc r, now⟩ := by
        rw [evalResource_triggered, hw]
      cases hl : rs.filterMap (fun r =>
          (resourceWinner (get_alarms st) r (currentValue usage lc r) hour).map
            (fun w => (w, currentValue usage lc r))) with
      | nil => simp [lastTrigger, htrig]
      | cons q qs =>
        simp only [lastTrigger, List.getLast?_cons_cons]
        cases hql : (q :: qs).getLast? with
        | none => simp at hql
        | some p => rfl

theorem runTick_state (st : AMState) (sample : Option Usage)
    (lc hour now : Nat) :
    (runTick st sample lc hour now).alarms = st.alarms ∧
    (runTick st sample lc hour now).persisted = st.persisted ∧
    (runTick st sample lc hour now).triggered_alarm =
      lastTrigger
        (tickWinners (get_alarms st) (get_system_usage sample) lc hour)
        st.triggered_alarm now := by
  unfold runTick tickWinners
  exact foldl_evalResource (get_system_usage sample) lc hour now
    AVAILABLE_RESOURCES st

theorem winner_mem_activeBreached {alarms : List Alarm} {resource : String}
    {v : Rat} {hour : Nat} {w : Alarm}
    (h : resourceWinner alarms resource v hour = some w) :
    w ∈ activeBreached alarms resource v hour ∧
    ∀ a ∈ activeBreached alarms resource v hour, a.threshold ≤ w.threshold := by
  rw [resourceWinner_eq_activeBreached] at h
  cases hab : activeBreached alarms resource v hour with
  | nil => rw [hab] at h; exact absurd h (by simp)
  | cons x xs =>
    rw [hab] at h
    simp only [Option.some.injEq] at h
    obtain ⟨hm, hle, hall⟩ := pythonMax_spec (fun a => a.threshold) x xs
    refine ⟨h ▸ hm, ?_⟩
    intro a ha
    rcases List.mem_cons.mp ha with h1 | h1
    · rw [h1, ← h]; exact hle
    · rw [← h]; exact hall a h1

theorem winner_is_active {alarms : List Alarm} {resource : String}
    {v : Rat} {hour : Nat} {w : Alarm}
    (h : resourceWinner alarms resource v hour = some w) :
    is_alarm_active w hour = true := by
  have hm := (winner_mem_activeBreached h).1
  unfold activeBreached at hm
  exact (List.mem_filter.mp hm).2

theorem activeBreached_filter_inactive {hour : Nat} {ex : Alarm}
    (h : is_alarm_active ex hour = false) (alarms : List Alarm)
    (resource : String) (v : Rat) :
    activeBreached (alarms.filter (fun a => decide (a ≠ ex))) resource v hour =
      activeBreached alarms resource v hour := by
  unfold activeBreached breached
  rw [List.filter_filter, List.filter_filter, List.filter_filter]
  apply List.filter_congr
  intro a _
  by_cases hae : a = ex
  · subst hae
    simp [is_alarm_active] at h ⊢
    simp [h]
  · simp [hae]

/-! ### Claim theorems -/

/-- C3: for every resource and evaluation, among the rules for that resource
that are active for the current hour and whose threshold is at or below the
current metric value (equality counts as breached — `activeBreached` is
defined with `<=`), the selected rule is one of them and carries the maximum
threshold. -/
theorem max_threshold_rule_wins (alarms : List Alarm) (resource : String)
    (v : Rat) (hour : Nat) (w : Alarm)
    (h : resourceWinner alarms resource v hour = some w) :
    w ∈ activeBreached alarms resource v hour ∧
    ∀ a ∈ activeBreached alarms resource v hour, a.threshold ≤ w.threshold :=
  winner_mem_activeBreached h

/-- C3 witness: with `cpu_percent = 90` and active cpu rules with thresholds
70 and 85, the threshold-85 rule is selected, is in the candidate set, and
dominates every candidate's threshold. -/
theorem max_threshold_rule_wins_witness :
    resourceWinner [cpuRule70, cpuRule85] "cpu" 90 12 = some cpuRule85 ∧
    cpuRule85 ∈ activeBreached [cpuRule70, cpuRule85] "cpu" 90 12 ∧
    ∀ a ∈ activeBreached [cpuRule70, cpuRule85] "cpu" 90 12,
      a.threshold ≤ cpuRule85.threshold :=
  ⟨by decide,
   (max_threshold_rule_wins [cpuRule70, cpuRule85] "cpu" 90 12 cpuRule85
      (by decide)).1,
   (max_threshold_rule_wins [cpuRule70, cpuRule85] "cpu" 90 12 cpuRule85
      (by decide)).2⟩

/-- C8: the active-period predicate is true for `always`; for `day` exactly
when the hour is in [6,21]; for `night` exactly when hour < 6 or hour > 21;
for `office` exactly when the hour is in [9,17]; for `non-office` the
negation of the office window; and true (fail-open) for any unknown tag. -/
theorem active_period_characterization (hour : Nat) :
    isActivePeriod "always" hour = true ∧
    (isActivePeriod "day" hour = true ↔ 6 ≤ hour ∧ hour ≤ 21) ∧
    (isActivePeriod "night" hour = true ↔ hour < 6 ∨ 21 < hour) ∧
    (isActivePeriod "office" hour = true ↔ 9 ≤ hour ∧ hour ≤ 17) ∧
    (isActivePeriod "non-office" hour = true ↔ ¬(9 ≤ hour ∧ hour ≤ 17)) ∧
    ∀ period, period ∉ ["always", "day", "night", "office", "non-office"] →
      isActivePeriod period hour = true := by
  refine ⟨rfl, by simp [isActivePeriod], by simp [isActivePeriod],
    by simp [isActivePeriod], by simp [isActivePeriod]; omega, ?_⟩
  intro period hper
  simp only [List.mem_cons, List.not_mem_nil, or_false, not_or] at hper
  obtain ⟨h1, h2, h3, h4, h5⟩ := hper
  simp [isActivePeriod, h1, h2, h3, h4, h5]

/-- C8 witness: an unknown tag is fail-open at hour 10, and hour 22 is
outside the day window. -/
theorem active_period_characterization_witness :
    isActivePeriod "weekend" 10 = true ∧
    (isActivePeriod "day" 22 = true ↔ 6 ≤ 22 ∧ 22 ≤ 21) :=
  ⟨(active_period_characterization 10).2.2.2.2.2 "weekend" (by decide),
   (active_period_characterization 22).2.1⟩

/-- C4: a rule inactive at the current hour is never the selected rule for
any resource; removing it leaves every resource's selection unchanged
(active-period filtering happens before max-threshold selection, so an
inactive high-threshold rule cannot suppress an active lower-threshold one);
and a monitor tick either leaves the TriggeredAlarm unchanged or establishes
a rule that is active at the current hour. -/
theorem inactive_rule_never_wins_nor_blocks (hour : Nat) (ex : Alarm)
    (h : is_alarm_active ex hour = false) :
    (∀ alarms resource v, resourceWinner alarms resource v hour ≠ some ex) ∧
    (∀ alarms resource v, resourceWinner alarms resource v hour =
      resourceWinner (alarms.filter (fun a => decide (a ≠ ex))) resource v hour) ∧
    (∀ st sample lc now,
      (runTick st sample lc hour now).triggered_alarm = st.triggered_alarm ∨
      ∃ w v, (runTick st sample lc hour now).triggered_alarm =
          some ⟨w, v, now⟩ ∧ is_alarm_active w hour = true) := by
  refine ⟨?_, ?_, ?_⟩
  · intro alarms resource v hc
    exact absurd (winner_is_active hc) (by simp [h])
  · intro alarms resource v
    rw [resourceWinner_eq_activeBreached, resourceWinner_eq_activeBreached,
      activeBreached_filter_inactive h]
  · intro st sample lc now
    have hr := (runTick_state st sample lc hour now).2.2
    rw [hr]
    unfold lastTrigger
    cases hgl : (tickWinners (get_alarms st) (get_system_usage sample)
        lc hour).getLast? with
    | none => exact Or.inl rfl
    | some p =>
      right
      refine ⟨p.1, p.2, rfl, ?_⟩
      have hmem := List.mem_of_getLast?_eq_some hgl
      unfold tickWinners at hmem
      obtain ⟨r, _, hmap⟩ := List.mem_filterMap.mp hmem
      cases hw : resourceWinner (get_alarms st) r
          (currentValue (get_system_usage sample) lc r) hour with
      | none => rw [hw] at hmap; simp at hmap
      | some w =>
        rw [hw] at hmap
        simp only [Option.map_some', Option.some.injEq] at hmap
        have hwp : w = p.1 := by rw [← hmap]
        exact hwp ▸ winner_is_active hw

/-- C4 witness: the office-period cpu rule breached at hour 22 is not
selected; the same rule with the same breach at hour 10 is selected. -/
theorem inactive_rule_never_wins_nor_blocks_witness :
    resourceWinner [officeRule] "cpu" 95 22 ≠ some officeRule ∧
    resourceWinner [officeRule] "cpu" 95 10 = some officeRule :=
  ⟨(inactive_rule_never_wins_nor_blocks 22 officeRule (by decide)).1
      [officeRule] "cpu" 95,
   by decide⟩

/-- C1: when more than one resource has an active breaching rule in a tick,
the final TriggeredAlarm is the winning rule of the last breaching resource
in the enumeration order cpu, ram, disk, logs; in particular, when cpu and
logs both breach, the final TriggeredAlarm reflects the logs breach. -/
theorem last_breaching_resource_wins (st : AMState) (sample : Option Usage)
    (lc hour now : Nat)
    (h : 1 < (tickWinners (get_alarms st) (get_system_usage sample)
        lc hour).length) :
    (∃ p, (tickWinners (get_alarms st) (get_system_usage sample)
        lc hour).getLast? = some p ∧
      (runTick st sample lc hour now).triggered_alarm =
        some ⟨p.1, p.2, now⟩) ∧
    (∀ wc wl,
      resourceWinner (get_alarms st) "cpu"
        (currentValue (get_system_usage sample) lc "cpu") hour = some wc →
      resourceWinner (get_alarms st) "logs"
        (currentValue (get_system_usage sample) lc "logs") hour = some wl →
      (runTick st sample lc hour now).triggered_alarm =
        some ⟨wl, currentValue (get_system_usage sample) lc "logs", now⟩) := by
  have hr := (runTick_state st sample lc hour now).2.2
  constructor
  · rw [hr]
    unfold lastTrigger
    cases hgl : (tickWinners (get_alarms st) (get_system_usage sample)
        lc hour).getLast? with
    | none =>
      rw [List.getLast?_eq_none_iff] at hgl
      rw [hgl] at h
      simp at h
    | some p => exact ⟨p, rfl, rfl⟩
  · intro wc wl _ hl
    rw [hr]
    have hlist : tickWinners (get_alarms st) (get_system_usage sample)
        lc hour =
        (["cpu", "ram", "disk"].filterMap (fun r =>
          (resourceWinner (get_alarms st) r
              (currentValue (get_system_usage sample) lc r) hour).map
            (fun w => (w, currentValue (get_system_usage sample) lc r)))) ++
        [(wl, currentValue (get_system_usage sample) lc "logs")] := by
      unfold tickWinners
      rw [show AVAILABLE_RESOURCES = ["cpu", "ram", "disk"] ++ ["logs"]
          from rfl, List.filterMap_append]
      simp [hl]
    rw [hlist]
    unfold lastTrigger
    rw [List.getLast?_concat]

/-- C1 witness: with cpu at 90 (rules 70 and 85 both breached) and 5 log
entries against a logs rule with threshold 1, the tick ends with the logs
rule as the TriggeredAlarm. -/
theorem last_breaching_resource_wins_witness :
    (runTick stCpuLogs (some usage90) 5 12 7).triggered_alarm =
      some ⟨logsRule, currentValue (get_system_usage (some usage90)) 5 "logs",
        7⟩ :=
  (last_breaching_resource_wins stCpuLogs (some usage90) 5 12 7
      (by decide)).2 cpuRule85 logsRule (by decide) (by decide)

attribute [ext] AMState

theorem foldl_check_no_winner (usage : Usage) (now : Nat) (rs : List String)
    (s : AMState)
    (hno : ∀ r ∈ rs, checkResourceWinner s.alarms r (usageGet usage r) =
      Option.none) :
    rs.foldl (fun s r =>
      let v := usageGet usage r
      match checkResourceWinner s.alarms r v with
      | Option.none => s
      | some w => trigger_alarm s w v now) s = s := by
  induction rs with
  | nil => rfl
  | cons r rs ih =>
    rw [List.foldl_cons]
    have h0 := hno r (List.mem_cons_self _ _)
    have hstep : (let v := usageGet usage r
        match checkResourceWinner s.alarms r v with
        | Option.none => s
        | some w => trigger_alarm s w v now) = s := by
      simp only [h0]
    rw [hstep]
    exact ih (fun q hq => hno q (List.mem_cons_of_mem _ hq))

/-- C2 counterexample: a tick in which no rule breaches (there are no rules
at all) ends with the stale TriggeredAlarm from before the tick, not with
none: the monitor loop never resets the TriggeredAlarm. -/
theorem tick_reset_counterexample :
    tickWinners (get_alarms stNoRules) (get_system_usage (some usage90))
      0 12 = [] ∧
    (runTick stNoRules (some usage90) 0 12 1).triggered_alarm =
      some prevTrig ∧
    (runTick stNoRules (some usage90) 0 12 1).triggered_alarm ≠
      Option.none :=
  ⟨by decide, by decide, by decide⟩

/-- C2 amended: the monitor tick does not reset the TriggeredAlarm; a tick
in which no rule breaches leaves the whole manager state (previous
TriggeredAlarm included) unchanged.  Only the uncalled helper
`_check_alarms` resets first: a breach-free `_check_alarms` call ends with
none. -/
theorem no_breach_tick_preserves_state (st : AMState) (sample : Option Usage)
    (lc hour now : Nat)
    (h : tickWinners (get_alarms st) (get_system_usage sample) lc hour = []) :
    runTick st sample lc hour now = st ∧
    ∀ usage now2, (∀ r ∈ AVAILABLE_RESOURCES,
        checkResourceWinner st.alarms r (usageGet usage r) = Option.none) →
      (check_alarms st usage now2).triggered_alarm = Option.none := by
  constructor
  · obtain ⟨ha, hp, ht⟩ := runTick_state st sample lc hour now
    rw [h] at ht
    exact AMState.ext ha (by simpa [lastTrigger] using ht) hp
  · intro usage now2 hnone
    unfold check_alarms
    rw [foldl_check_no_winner usage now2 AVAILABLE_RESOURCES
      { alarms := st.alarms, triggered_alarm := Option.none
        persisted := st.persisted } hnone]

/-- C2 amended witness: at the stale-alarm state with no rules, the tick is
a no-op and a `_check_alarms` call ends with none. -/
theorem no_breach_tick_preserves_state_witness :
    runTick stNoRules (some usage90) 0 12 1 = stNoRules ∧
    (check_alarms stNoRules usage90 1).triggered_alarm = Option.none :=
  ⟨(no_breach_tick_preserves_state stNoRules (some usage90) 0 12 1
      (by decide)).1,
   (no_breach_tick_preserves_state stNoRules (some usage90) 0 12 1
      (by decide)).2 usage90 1 (by decide)⟩

theorem usageGet_zero (r : String) : usageGet zeroUsage r = 0 := by
  unfold usageGet
  split
  · rfl
  · split
    · rfl
    · split
      · rfl
      · rfl

theorem winner_zero_of_min_threshold {st : AMState} {hour : Nat}
    (h : ∀ a ∈ st.alarms, a.resource ≠ "logs" → 1 ≤ a.threshold)
    {r : String} (hr : r ≠ "logs") :
    resourceWinner (get_alarms st) r 0 hour = Option.none := by
  rw [resourceWinner_eq_activeBreached]
  have hb : breached (get_alarms st) r 0 = [] := by
    unfold breached
    rw [List.filter_eq_nil_iff]
    intro a ha
    simp only [Bool.and_eq_true, decide_eq_true_eq, not_and]
    intro hres hle
    have h1 : 1 ≤ a.threshold := h a (mem_get_alarms.mp ha) (hres ▸ hr)
    have h1q : (1 : Rat) ≤ (a.threshold : Rat) := by exact_mod_cast h1
    linarith
  unfold activeBreached
  rw [hb]
  rfl

/-- C5 counterexample: with a failed metric sample (`none`), the tick's
TriggeredAlarm is not left unchanged: a logs rule still evaluates against
the real log count and overwrites it. -/
theorem failed_sample_still_evaluates_counterexample :
    (runTick stLogsOnly Option.none 5 12 0).triggered_alarm ≠
      stLogsOnly.triggered_alarm ∧
    (runTick stLogsOnly Option.none 5 12 0).triggered_alarm =
      some ⟨logsRule, ((5 : Nat) : Rat), 0⟩ :=
  ⟨by decide, by decide⟩

/-- C5 amended: a failed metric sample is logged inside `get_system_usage`
and replaced by an all-zero snapshot, so no exception escapes the tick and
the store lists are untouched; with the zero snapshot no cpu/ram/disk rule
whose threshold is at least 1 can breach, but evaluation is not skipped:
logs rules still evaluate against the real log count, and the TriggeredAlarm
is overwritten exactly when a logs rule wins. -/
theorem failed_sample_zeroes_metrics (st : AMState) (lc hour now : Nat)
    (h : ∀ a ∈ st.alarms, a.resource ≠ "logs" → 1 ≤ a.threshold) :
    (runTick st Option.none lc hour now).alarms = st.alarms ∧
    (runTick st Option.none lc hour now).persisted = st.persisted ∧
    (runTick st Option.none lc hour now).triggered_alarm =
      match resourceWinner (get_alarms st) "logs"
          (currentValue zeroUsage lc "logs") hour with
      | some w => some ⟨w, currentValue zeroUsage lc "logs", now⟩
      | Option.none => st.triggered_alarm := by
  obtain ⟨ha, hp, ht⟩ := runTick_state st Option.none lc hour now
  refine ⟨ha, hp, ?_⟩
  rw [ht]
  have hcv : ∀ r, r ≠ "logs" → currentValue zeroUsage lc r = 0 := by
    intro r hr
    unfold currentValue
    rw [if_neg hr]
    exact usageGet_zero r
  have husage : get_system_usage Option.none = zeroUsage := rfl
  rw [husage]
  have htw : tickWinners (get_alarms st) zeroUsage lc hour =
      match resourceWinner (get_alarms st) "logs"
          (currentValue zeroUsage lc "logs") hour with
      | some w => [(w, currentValue zeroUsage lc "logs")]
      | Option.none => [] := by
    unfold tickWinners
    rw [show AVAILABLE_RESOURCES = ["cpu", "ram", "disk", "logs"] from rfl]
    simp only [List.filterMap_cons, List.filterMap_nil]
    rw [hcv "cpu" (by decide), hcv "ram" (by decide), hcv "disk" (by decide),
      winner_zero_of_min_threshold h (by decide : ("cpu" : String) ≠ "logs"),
      winner_zero_of_min_threshold h (by decide : ("ram" : String) ≠ "logs"),
      winner_zero_of_min_threshold h (by decide : ("disk" : String) ≠ "logs")]
    cases resourceWinner (get_alarms st) "logs"
        (currentValue zeroUsage lc "logs") hour <;> simp
  rw [htw]
  cases resourceWinner (get_alarms st) "logs"
      (currentValue zeroUsage lc "logs") hour <;> simp [lastTrigger]

/-- C5 amended witness: at the logs-only store with a failed sample and 5
log entries, the store lists are untouched and the tick's TriggeredAlarm
follows the logs winner. -/
theorem failed_sample_zeroes_metrics_witness :
    (runTick stLogsOnly Option.none 5 12 0).alarms = stLogsOnly.alarms ∧
    (runTick stLogsOnly Option.none 5 12 0).triggered_alarm =
      match resourceWinner (get_alarms stLogsOnly) "logs"
          (currentValue zeroUsage 5 "logs") 12 with
      | some w => some ⟨w, currentValue zeroUsage 5 "logs", 0⟩
      | Option.none => stLogsOnly.triggered_alarm :=
  ⟨(failed_sample_zeroes_metrics stLogsOnly 5 12 0 (by decide)).1,
   (failed_sample_zeroes_metrics stLogsOnly 5 12 0 (by decide)).2.2⟩

/-- C6: a valid `add_alarm` call (known resource, threshold in range for the
resource kind, known active period) succeeds, returns the new id, appends
the new rule, persists it, and makes it retrievable via `get_alarms`; an
invalid call fails with a validation error and leaves the state (in-memory
and persisted) unchanged. -/
theorem add_alarm_validation (st : AMState) (resource : String)
    (threshold : Int) (name : Option String) (active_period newId : String) :
    (validAdd resource threshold active_period →
      (add_alarm st resource threshold name active_period newId).1 =
        Except.ok newId ∧
      (add_alarm st resource threshold name active_period newId).2.alarms =
        st.alarms ++ [mkNewAlarm resource threshold name active_period newId] ∧
      (add_alarm st resource threshold name active_period newId).2.persisted =
        st.alarms ++ [mkNewAlarm resource threshold name active_period newId] ∧
      mkNewAlarm resource threshold name active_period newId ∈
        get_alarms (add_alarm st resource threshold name active_period
          newId).2 ∧
      (mkNewAlarm resource threshold name active_period newId).id = newId ∧
      (mkNewAlarm resource threshold name active_period newId).resource =
        resource ∧
      (mkNewAlarm resource threshold name active_period newId).threshold =
        threshold ∧
      (mkNewAlarm resource threshold name active_period
        newId).active_period = active_period) ∧
    (¬ validAdd resource threshold active_period →
      (∃ e, (add_alarm st resource threshold name active_period newId).1 =
        Except.error e) ∧
      (add_alarm st resource threshold name active_period newId).2 = st) := by
  constructor
  · rintro ⟨h1, h2, h3, h4⟩
    have hg1 : ¬ resource ∉ AVAILABLE_RESOURCES := not_not_intro h1
    have hg2 : ¬ (resource = "logs" ∧ threshold ≤ 0) := by
      rintro ⟨he, hle⟩
      exact absurd (h2 he) (not_lt.mpr hle)
    have hg3 : ¬ (resource ≠ "logs" ∧ ¬(1 ≤ threshold ∧ threshold ≤ 100)) := by
      rintro ⟨hne, hnr⟩
      exact hnr (h3 hne)
    have hg4 : ¬ active_period ∉ VALID_PERIODS := not_not_intro h4
    unfold add_alarm
    rw [if_neg hg1, if_neg hg2, if_neg hg3, if_neg hg4]
    refine ⟨rfl, rfl, rfl, ?_, rfl, rfl, rfl, rfl⟩
    exact mem_get_alarms.mpr (by simp)
  · intro hnv
    by_cases hg1 : resource ∈ AVAILABLE_RESOURCES
    · by_cases hg2 : resource = "logs" ∧ threshold ≤ 0
      · unfold add_alarm
        rw [if_neg (not_not_intro hg1), if_pos hg2]
        exact ⟨⟨_, rfl⟩, rfl⟩
      · by_cases hg3 : resource ≠ "logs" ∧ ¬(1 ≤ threshold ∧ threshold ≤ 100)
        · unfold add_alarm
          rw [if_neg (not_not_intro hg1), if_neg hg2, if_pos hg3]
          exact ⟨⟨_, rfl⟩, rfl⟩
        · by_cases hg4 : active_period ∈ VALID_PERIODS
          · refine absurd ⟨hg1, ?_, ?_, hg4⟩ hnv
            · exact fun he => not_le.mp (fun hle => hg2 ⟨he, hle⟩)
            · exact fun hne => not_not.mp (fun hnr => hg3 ⟨hne, hnr⟩)
          · unfold add_alarm
            rw [if_neg (not_not_intro hg1), if_neg hg2, if_neg hg3,
              if_pos hg4]
            exact ⟨⟨_, rfl⟩, rfl⟩
    · unfold add_alarm
      rw [if_pos hg1]
      exact ⟨⟨_, rfl⟩, rfl⟩

/-- C6 witness: adding a threshold-85 cpu rule to the empty store succeeds
and the rule is retrievable; adding a rule for the unknown resource `gpu`
fails and leaves the store unchanged. -/
theorem add_alarm_validation_witness :
    ((add_alarm stEmpty "cpu" 85 Option.none "always" "fresh-id").1 =
      Except.ok "fresh-id" ∧
     mkNewAlarm "cpu" 85 Option.none "always" "fresh-id" ∈
      get_alarms (add_alarm stEmpty "cpu" 85 Option.none "always"
        "fresh-id").2) ∧
    ((∃ e, (add_alarm stEmpty "gpu" 85 Option.none "always" "fresh-id").1 =
      Except.error e) ∧
     (add_alarm stEmpty "gpu" 85 Option.none "always" "fresh-id").2 =
      stEmpty) :=
  ⟨⟨((add_alarm_validation stEmpty "cpu" 85 Option.none "always"
        "fresh-id").1 (by decide)).1,
    ((add_alarm_validation stEmpty "cpu" 85 Option.none "always"
        "fresh-id").1 (by decide)).2.2.2.1⟩,
   (add_alarm_validation stEmpty "gpu" 85 Option.none "always"
      "fresh-id").2 (by decide)⟩

/-- C7: removing a non-existent id returns false and mutates nothing;
removing an existing id filters it out of the in-memory list, persists the
result, returns true, and clears the TriggeredAlarm exactly when it carried
the removed id. -/
theorem remove_alarm_spec (st : AMState) (alarm_id : String) :
    ((∀ a ∈ st.alarms, a.id ≠ alarm_id) →
      remove_alarm st alarm_id = (false, st)) ∧
    ((∃ a ∈ st.alarms, a.id = alarm_id) →
      (remove_alarm st alarm_id).1 = true ∧
      (remove_alarm st alarm_id).2.alarms =
        st.alarms.filter (fun a => decide (a.id ≠ alarm_id)) ∧
      (remove_alarm st alarm_id).2.persisted =
        st.alarms.filter (fun a => decide (a.id ≠ alarm_id)) ∧
      (∀ t, st.triggered_alarm = some t → t.rule.id = alarm_id →
        (remove_alarm st alarm_id).2.triggered_alarm = Option.none) ∧
      (∀ t, st.triggered_alarm = some t → t.rule.id ≠ alarm_id →
        (remove_alarm st alarm_id).2.triggered_alarm = some t)) := by
  constructor
  · intro hno
    have hfe : st.alarms.filter (fun a => decide (a.id ≠ alarm_id)) =
        st.alarms :=
      List.filter_eq_self.mpr (fun a ha => by simpa using hno a ha)
    unfold remove_alarm
    rw [hfe, if_neg (lt_irrefl _)]
  · rintro ⟨a, ha, haid⟩
    have hlt : (st.alarms.filter (fun x => decide (x.id ≠ alarm_id))).length <
        st.alarms.length := by
      rcases lt_or_eq_of_le (List.length_filter_le _ st.alarms) with h | h
      · exact h
      · exfalso
        have heq : st.alarms.filter (fun x => decide (x.id ≠ alarm_id)) =
            st.alarms :=
          List.Sublist.eq_of_length (List.filter_sublist _) h
        have hmem : a ∈ st.alarms.filter (fun x => decide (x.id ≠ alarm_id)) := by
          rw [heq]; exact ha
        have := (List.mem_filter.mp hmem).2
        simp [haid] at this
    unfold remove_alarm
    rw [if_pos hlt]
    refine ⟨rfl, rfl, rfl, ?_, ?_⟩
    · intro t hts htid
      show (match st.triggered_alarm with
        | some t => if t.rule.id = alarm_id then Option.none else some t
        | Option.none => Option.none) = Option.none
      rw [hts]
      simp [htid]
    · intro t hts htid
      show (match st.triggered_alarm with
        | some t => if t.rule.id = alarm_id then Option.none else some t
        | Option.none => Option.none) = some t
      rw [hts]
      simp [htid]

/-- C7 witness: removing an unknown id from the empty store is a no-op
returning false; removing the id of the currently triggered logs rule
returns true and clears the TriggeredAlarm. -/
theorem remove_alarm_spec_witness :
    remove_alarm stEmpty "nope" = (false, stEmpty) ∧
    (remove_alarm stTrigLogs "id-logs").1 = true ∧
    (remove_alarm stTrigLogs "id-logs").2.triggered_alarm = Option.none :=
  ⟨(remove_alarm_spec stEmpty "nope").1 (by decide),
   ((remove_alarm_spec stTrigLogs "id-logs").2
      ⟨logsRule, by decide, by decide⟩).1,
   ((remove_alarm_spec stTrigLogs "id-logs").2
      ⟨logsRule, by decide, by decide⟩).2.2.2.1
     { rule := logsRule, current_value := 5, triggered_at := 0 } rfl rfl⟩

/-- C9 counterexample: `get_alarms` returns a fresh list whose elements are
the manager's own rule records; mutating the record reached through the
returned list (reference 0) changes the store's internal alarm state. -/
theorem get_alarms_shallow_copy_counterexample :
    0 ∈ getAlarmsRefs exStore ∧
    (writeCell exStore 0 mutatedRule).view ≠ exStore.view :=
  ⟨by decide, by decide⟩

/-- C9 amended: the list object returned by `get_alarms` is a copy, but the
rule records in it alias the store's records: mutating any record reachable
from the returned list changes the store's internal alarm state. -/
theorem returned_records_alias_store (s : StoreRefs) (r : Nat) (a : Alarm)
    (h : r ∈ getAlarmsRefs s) (h2 : a ≠ s.heap r) :
    r ∈ s.refs ∧ (writeCell s r a).view ≠ s.view := by
  have hmem : r ∈ s.refs := by
    unfold getAlarmsRefs at h
    exact (List.mem_insertionSort _).mp h
  refine ⟨hmem, ?_⟩
  intro hEq
  unfold StoreRefs.view writeCell at hEq
  have hpt := List.map_inj_left.mp hEq r hmem
  simp only [if_pos rfl] at hpt
  exact h2 hpt

/-- C9 amended witness: the concrete one-cell store, mutated through the
reference returned by `get_alarms`. -/
theorem returned_records_alias_store_witness :
    0 ∈ exStore.refs ∧
    (writeCell exStore 0 mutatedRule).view ≠ exStore.view :=
  returned_records_alias_store exStore 0 mutatedRule (by decide) (by decide)

/-- C10: when the first `add_alarm` argument is not a valid resource name
but the second is a string naming a valid resource, the arguments are
reinterpreted as (name, resource, threshold); with an in-range integer
threshold the call succeeds and stores (name = a, resource = b,
threshold = t), identically to the unshifted call order. -/
theorem add_alarm_argument_shift (st : AMState) (a b : String) (c : PyVal)
    (active_period newId : String)
    (ha : a ∉ AVAILABLE_RESOURCES) (hb : b ∈ AVAILABLE_RESOURCES) :
    addAlarmPy st (.str a) (.str b) c active_period newId =
      addAlarmPy st (.str b) c (.str a) active_period newId ∧
    ∀ t : Int, c = .int t → 1 ≤ t → t ≤ 100 → b ≠ "logs" →
      active_period ∈ VALID_PERIODS → a ≠ "" →
      (addAlarmPy st (.str a) (.str b) c active_period newId).1 =
        Except.ok newId ∧
      (addAlarmPy st (.str a) (.str b) c active_period newId).2.alarms =
        st.alarms ++ [{ id := newId, name := a, resource := b,
                        threshold := t,
                        active_period := active_period }] := by
  have hA : (PyVal.str a).inResources = false := by
    simp [PyVal.inResources, ha]
  have hB : (PyVal.str b).inResources = true := by
    simp [PyVal.inResources, hb]
  have hshift : addAlarmPy st (.str a) (.str b) c active_period newId =
      addAlarmPy st (.str b) c (.str a) active_period newId := by
    unfold addAlarmPy
    simp [hA, hB, PyVal.isStr]
  refine ⟨hshift, ?_⟩
  intro t hc h1t h2t hbl hper hane
  subst hc
  rw [hshift]
  have hg1 : ¬ b ∉ AVAILABLE_RESOURCES := not_not_intro hb
  have hg2 : ¬ (b = "logs" ∧ t ≤ 0) := fun hx => hbl hx.1
  have hg3 : ¬ (b ≠ "logs" ∧ ¬(1 ≤ t ∧ t ≤ 100)) := fun hx => hx.2 ⟨h1t, h2t⟩
  have hg4 : ¬ active_period ∉ VALID_PERIODS := not_not_intro hper
  unfold addAlarmPy
  rw [if_neg (by simp [hB])]
  simp only []
  rw [if_neg hg1, if_neg hg2, if_neg hg3, if_neg hg4]
  simp [resolveNamePy, PyVal.truthy, PyVal.render, hane]

/-- C10 witness: `add_alarm('My alarm', 'cpu', 85)` equals
`add_alarm('cpu', 85, 'My alarm')` and stores the rule
(name 'My alarm', resource cpu, threshold 85). -/
theorem add_alarm_argument_shift_witness :
    addAlarmPy stEmpty (.str "My alarm") (.str "cpu") (.int 85) "always"
        "fresh-id" =
      addAlarmPy stEmpty (.str "cpu") (.int 85) (.str "My alarm") "always"
        "fresh-id" ∧
    (addAlarmPy stEmpty (.str "My alarm") (.str "cpu") (.int 85) "always"
        "fresh-id").2.alarms =
      stEmpty.alarms ++ [{ id := "fresh-id", name := "My alarm",
                           resource := "cpu", threshold := 85,
                           active_period := "always" }] :=
  ⟨(add_alarm_argument_shift stEmpty "My alarm" "cpu" (.int 85) "always"
      "fresh-id" (by decide) (by decide)).1,
   ((add_alarm_argument_shift stEmpty "My alarm" "cpu" (.int 85) "always"
      "fresh-id" (by decide) (by decide)).2 85 rfl (by decide) (by decide)
      (by decide) (by decide) (by decide)).2⟩

end AlarmMgr
